import Mathlib

/-!
# Verification of the crypto exchange-rate dashboard notebook

Shallow embedding of the logic cells of
`openbb_terminal/dashboards/voila/crypto.ipynb`:

* `get_exchange_rate` embeds the notebook function of the same name.  The
  external call `openbb.crypto.load(symbol=coin, interval="1440", source="CCXT")`
  is modelled by a fetch oracle `FetchOracle` returning either an exception
  (`Except.error`) or the `Close` column of the returned dataframe.  A `Close`
  observation carries both its numeric value (as `ℚ`; the notebook compares
  the values with `>` and `<`) and its default Python string representation
  (the notebook computes the display price as `str(...)[:7]`).  The pandas
  accesses `iloc[-1]` / `iloc[-2]` raise `IndexError` when the column has
  fewer than two rows; this is modelled by matching on the reversed list.
  The declared parameter `days: int = 2` of the notebook function is unused
  in its body and is therefore omitted.

* `show_rates` embeds the notebook's button handler.  The notebook globals
  `exchange_rates` (a `dict`) and `grid.children` (a tuple of widgets) form
  the `PanelState`; the dict is modelled as an insertion-ordered association
  list.  Python resolves the free global name `api` (in
  `api.widgets.price_card(...)`) dynamically at call time, so the embedding
  takes the binding of `api` as a parameter `api? : Option Unit`:
  `some _` means the name is bound to a working SDK object (card construction
  succeeds and produces the markup triple), `none` means the name is unbound
  and its evaluation raises `NameError`.  The notebook itself never defines
  or imports `api` (its only SDK import is
  `from openbb_terminal.sdk import openbb, widgets`), which is recorded by
  `apiBinding = none`.

The embedding also records, per refresh, the sequence of requests issued to
the external data source and the successive values assigned to
`grid.children`, so that claims about request traffic and about intermediate
grid states can be stated.
-/

/-- One observation of the `Close` column: its numeric value and its default
Python string representation (`str(x)`). -/
structure CloseObs where
  val : ℚ
  rep : String
  deriving DecidableEq

/-- Model of `openbb.crypto.load`: for a symbol, either raise (network error,
unknown symbol, ...) or return the `Close` column of the loaded dataframe. -/
def FetchOracle : Type := String → Except Unit (List CloseObs)

/-- A request issued to the external data source, with the keyword arguments
the notebook passes to `openbb.crypto.load`. -/
structure LoadRequest where
  symbol : String
  interval : String
  source : String
  deriving DecidableEq

/-- The request `get_exchange_rate` issues for a coin:
`openbb.crypto.load(symbol=coin, interval="1440", source="CCXT")`. -/
def mkLoadRequest (coin : String) : LoadRequest :=
  { symbol := coin, interval := "1440", source := "CCXT" }

/-- Embedding of the notebook's `get_exchange_rate(coin)`:
load the dataframe (propagating any exception), then
`price_color = "neutral_color"`, upgraded to `"up_color"` when
`Close.iloc[-1] > Close.iloc[-2]` and to `"down_color"` when
`Close.iloc[-1] < Close.iloc[-2]`; `price = str(Close.iloc[-1])[:7]`.
`iloc[-1]`/`iloc[-2]` on a column with fewer than two rows raise
`IndexError`, modelled by the catch-all error branch. -/
def get_exchange_rate (fetch : FetchOracle) (coin : String) :
    Except Unit (String × String) :=
  match fetch coin with
  | Except.error e => Except.error e
  | Except.ok closes =>
    match closes.reverse with
    | latest :: prior :: _ =>
      let price_color :=
        if latest.val > prior.val then "up_color"
        else if latest.val < prior.val then "down_color"
        else "neutral_color"
      Except.ok (latest.rep.take 7, price_color)
    | _ => Except.error ()

/-- The notebook's fixed ticker list.  The source builds it as
`("BTC,ETH,USDT,BNB,USDC,XRP,LUNA,ADA," + "SOL,AVAX,DOT,BUSD,DOGE,UST,SHIB,WBTC,"
+ "MATIC,CRO,DAI,LTC,ATOM,NEAR,LINK,BCH," + "UNI,TRX,FTT,ETC,LEO,ALGO,XLM,MANA,"
+ "BTCB,HBAR,EGLD,ICP,SAND,XMR,WAVES,VET," + "APE,FIL,FTM,AXS,THETA,KLAY,XTZ,RUNE").split(",")`;
transcribed here as the resulting list of 48 symbols. -/
def COIN_LIST : List String :=
  ["BTC", "ETH", "USDT", "BNB", "USDC", "XRP", "LUNA", "ADA",
   "SOL", "AVAX", "DOT", "BUSD", "DOGE", "UST", "SHIB", "WBTC",
   "MATIC", "CRO", "DAI", "LTC", "ATOM", "NEAR", "LINK", "BCH",
   "UNI", "TRX", "FTT", "ETC", "LEO", "ALGO", "XLM", "MANA",
   "BTCB", "HBAR", "EGLD", "ICP", "SAND", "XMR", "WAVES", "VET",
   "APE", "FIL", "FTM", "AXS", "THETA", "KLAY", "XTZ", "RUNE"]

/-- A value of the `exchange_rates` dict: the notebook only ever stores
`{"price": None, "color": None}`, but the record type allows strings, as the
spec's data model describes. -/
structure Entry where
  price : Option String
  color : Option String
  deriving DecidableEq

/-- A rendered price card: the arguments the notebook passes to
`api.widgets.price_card(ticker=coin, price=price, price_color=price_color)`
(the external markup builder is treated as an opaque injective constructor). -/
structure Card where
  ticker : String
  price : String
  price_color : String
  deriving DecidableEq

/-- The notebook's mutable globals touched by `show_rates`: the
`exchange_rates` dict (insertion-ordered association list) and the current
`grid.children`. -/
structure PanelState where
  exchange_rates : List (String × Entry)
  grid : List Card
  deriving DecidableEq

/-- `if coin not in exchange_rates.keys(): exchange_rates[coin] = {"price": None, "color": None}`:
insert a fresh all-`None` entry when the key is absent; an existing entry is
left untouched. -/
def dictLazyInit (m : List (String × Entry)) (coin : String) :
    List (String × Entry) :=
  match m.lookup coin with
  | some _ => m
  | none => m ++ [(coin, { price := none, color := none })]

/-- The `try/except` around the fetch:
`price, price_color = get_exchange_rate(coin=coin)` on success,
`price, price_color = "-------", "neutral_color"` on any exception. -/
def priceAndColor (fetch : FetchOracle) (coin : String) : String × String :=
  match get_exchange_rate fetch coin with
  | Except.ok pc => pc
  | Except.error _ => ("-------", "neutral_color")

/-- The card built for a coin in one refresh (ticker, displayed price, color). -/
def cardFor (fetch : FetchOracle) (coin : String) : Card :=
  { ticker := coin
    price := (priceAndColor fetch coin).1
    price_color := (priceAndColor fetch coin).2 }

/-- Everything one call of `show_rates` produces: the final globals, the
successive values assigned to `grid.children` (first the initial clearing,
then one assignment per card appended), the requests issued to the data
source, and whether the handler ran to completion (`false` when an uncaught
exception escaped it). -/
structure RefreshResult where
  state : PanelState
  trace : List (List Card)
  requests : List LoadRequest
  completed : Bool
  deriving DecidableEq

/-- The per-coin loop body of `show_rates`, iterated over the remaining
coins.  Each iteration: lazily initialise the dict entry; issue the fetch
(one `load` request) inside the `try/except`; then evaluate
`api.widgets.price_card(...)` — when `api?` is `none` this raises
`NameError`, which is outside the `try`, so the loop aborts there with the
mutations made so far; otherwise append the card and assign
`grid.children`. -/
def show_rates_go (fetch : FetchOracle) (api? : Option Unit) :
    List String → PanelState → RefreshResult
  | [], st => { state := st, trace := [], requests := [], completed := true }
  | coin :: rest, st =>
    let st1 : PanelState :=
      { st with exchange_rates := dictLazyInit st.exchange_rates coin }
    let pc := priceAndColor fetch coin
    match api? with
    | none =>
      { state := st1, trace := [], requests := [mkLoadRequest coin]
        completed := false }
    | some _ =>
      let newGrid := st1.grid ++ [{ ticker := coin, price := pc.1, price_color := pc.2 }]
      let st2 : PanelState := { st1 with grid := newGrid }
      let r := show_rates_go fetch api? rest st2
      { state := r.state, trace := newGrid :: r.trace
        requests := mkLoadRequest coin :: r.requests, completed := r.completed }

/-- Embedding of `show_rates(btn)`: clear `grid.children`, then run the
per-coin loop over `COIN_LIST`.  The initial clearing is the first entry of
the trace of values assigned to `grid.children`. -/
def show_rates (fetch : FetchOracle) (api? : Option Unit) (st : PanelState) :
    RefreshResult :=
  let st0 : PanelState := { st with grid := [] }
  let r := show_rates_go fetch api? COIN_LIST st0
  { r with trace := [] :: r.trace }

/-- The binding of the global name `api` in the notebook: no cell defines or
imports `api` (the only SDK import is
`from openbb_terminal.sdk import openbb, widgets`), so the name is unbound
and evaluating `api.widgets.price_card` raises `NameError`. -/
def apiBinding : Option Unit := none

/-! ## Concrete fetch oracles used in witnesses and counterexamples -/

/-- A data source for which every request raises (e.g. the network is down). -/
def fetchFailAll : FetchOracle := fun _ => Except.error ()

/-- A data source returning closes `[10.0, 12.0]` (prior, latest) for every
symbol: an upward move. -/
def fetchUp : FetchOracle :=
  fun _ => Except.ok [{ val := 10, rep := "10.0" }, { val := 12, rep := "12.0" }]

/-- A data source returning closes `[12.0, 10.0]` for every symbol: a
downward move. -/
def fetchDown : FetchOracle :=
  fun _ => Except.ok [{ val := 12, rep := "12.0" }, { val := 10, rep := "10.0" }]

/-- A data source returning closes `[10.0, 10.0]` for every symbol: no move. -/
def fetchFlat : FetchOracle :=
  fun _ => Except.ok [{ val := 10, rep := "10.0" }, { val := 10, rep := "10.0" }]

/-- A data source whose latest close is `12345.6789`
(Python: `str(12345.6789) == "12345.6789"`). -/
def fetchLong : FetchOracle :=
  fun _ => Except.ok
    [{ val := 10, rep := "10.0" }, { val := 12345.6789, rep := "12345.6789" }]

/-! ## Helper lemmas about the loop -/

theorem lookup_append_left {α β : Type} [BEq α] {m : List (α × β)}
    (l : List (α × β)) {c : α} {e : β} (h : m.lookup c = some e) :
    (m ++ l).lookup c = some e := by
  induction m with
  | nil => simp [List.lookup] at h
  | cons p m ih =>
    rw [List.cons_append]
    rw [List.lookup] at h ⊢
    cases hc : (c == p.1) with
    | true => simpa [hc] using h
    | false => rw [hc] at h; simpa [hc] using ih h

theorem lookup_dictLazyInit {m : List (String × Entry)} {c : String} {e : Entry}
    (c' : String) (h : m.lookup c = some e) :
    (dictLazyInit m c').lookup c = some e := by
  unfold dictLazyInit
  cases hl : m.lookup c' with
  | some _ => simpa using h
  | none => exact lookup_append_left _ h

/-- Keys already present in `exchange_rates` keep their value through the
loop, whatever the fetch outcomes and whether or not `api` is bound. -/
theorem show_rates_go_lookup (fetch : FetchOracle) (api? : Option Unit)
    (coins : List String) (st : PanelState) {c : String} {e : Entry}
    (h : st.exchange_rates.lookup c = some e) :
    (show_rates_go fetch api? coins st).state.exchange_rates.lookup c = some e := by
  induction coins generalizing st with
  | nil => simpa [show_rates_go] using h
  | cons coin rest ih =>
    cases api? with
    | none => simp [show_rates_go]; exact lookup_dictLazyInit _ h
    | some u =>
      simp only [show_rates_go]
      exact ih _ (lookup_dictLazyInit _ h)

/-- With `api` bound, the loop runs to completion. -/
theorem show_rates_go_completed (fetch : FetchOracle) (u : Unit)
    (coins : List String) (st : PanelState) :
    (show_rates_go fetch (some u) coins st).completed = true := by
  induction coins generalizing st with
  | nil => simp [show_rates_go]
  | cons coin rest ih => simp only [show_rates_go]; exact ih _

/-- With `api` bound, one request per coin is issued, in list order. -/
theorem show_rates_go_requests (fetch : FetchOracle) (u : Unit)
    (coins : List String) (st : PanelState) :
    (show_rates_go fetch (some u) coins st).requests =
      coins.map mkLoadRequest := by
  induction coins generalizing st with
  | nil => simp [show_rates_go]
  | cons coin rest ih => simp only [show_rates_go, List.map_cons]; rw [ih]

/-- With `api` bound, the loop appends one card per coin, in list order. -/
theorem show_rates_go_grid (fetch : FetchOracle) (u : Unit)
    (coins : List String) (st : PanelState) :
    (show_rates_go fetch (some u) coins st).state.grid =
      st.grid ++ coins.map (cardFor fetch) := by
  induction coins generalizing st with
  | nil => simp [show_rates_go]
  | cons coin rest ih =>
    simp only [show_rates_go, List.map_cons]
    rw [ih]
    simp [cardFor]

/-- With `api` bound, the successive values assigned to `grid.children` by
the loop are the successively longer prefixes of the card sequence. -/
theorem show_rates_go_trace (fetch : FetchOracle) (u : Unit)
    (coins : List String) (st : PanelState) :
    (show_rates_go fetch (some u) coins st).trace =
      (List.range coins.length).map
        (fun k => st.grid ++ (coins.take (k + 1)).map (cardFor fetch)) := by
  induction coins generalizing st with
  | nil => simp [show_rates_go]
  | cons coin rest ih =>
    simp only [show_rates_go, List.length_cons]
    rw [ih]
    rw [List.range_succ_eq_map]
    simp only [List.map_cons, List.map_map]
    simp [Function.comp, cardFor, List.take_cons, List.append_assoc]

/-- With `api` bound, the dict after the loop is the fold of the lazy
initialisation over the coins. -/
theorem show_rates_go_rates (fetch : FetchOracle) (u : Unit)
    (coins : List String) (st : PanelState) :
    (show_rates_go fetch (some u) coins st).state.exchange_rates =
      coins.foldl dictLazyInit st.exchange_rates := by
  induction coins generalizing st with
  | nil => simp [show_rates_go]
  | cons coin rest ih => simp only [show_rates_go, List.foldl_cons]; rw [ih]

/-- With `api` unbound, the first iteration initialises the first coin's dict
entry, issues the first coin's request, and then aborts on `NameError` before
any card is appended. -/
theorem show_rates_go_none (fetch : FetchOracle) (coin : String)
    (rest : List String) (st : PanelState) :
    show_rates_go fetch none (coin :: rest) st =
      { state := { st with exchange_rates := dictLazyInit st.exchange_rates coin }
        trace := [], requests := [mkLoadRequest coin], completed := false } := rfl

/-- `get_exchange_rate` on a successful fetch whose `Close` column ends in
`prior, latest`. -/
theorem get_exchange_rate_ok (fetch : FetchOracle) (coin : String)
    (pre : List CloseObs) (prior latest : CloseObs)
    (h : fetch coin = Except.ok (pre ++ [prior, latest])) :
    get_exchange_rate fetch coin =
      Except.ok (latest.rep.take 7,
        if latest.val > prior.val then "up_color"
        else if latest.val < prior.val then "down_color"
        else "neutral_color") := by
  unfold get_exchange_rate
  rw [h]
  simp [List.reverse_append]

/-- With `api` unbound — the notebook's actual environment — every refresh
aborts during the first coin's card construction: the grid is cleared and
left empty, the trace records only the clearing, and only the first coin
("BTC") was fetched and dict-initialised. -/
theorem show_rates_none (fetch : FetchOracle) (st : PanelState) :
    show_rates fetch none st =
      { state := { exchange_rates := dictLazyInit st.exchange_rates "BTC"
                   grid := [] }
        trace := [[]], requests := [mkLoadRequest "BTC"]
        completed := false } := rfl

/-- With `api` bound, the final grid of a refresh is one card per coin of
`COIN_LIST`, in order, independent of the starting state. -/
theorem show_rates_grid_some (fetch : FetchOracle) (u : Unit)
    (st : PanelState) :
    (show_rates fetch (some u) st).state.grid =
      COIN_LIST.map (cardFor fetch) := by
  have h := show_rates_go_grid fetch u COIN_LIST { st with grid := [] }
  simpa [show_rates] using h

/-- With `api` bound, a refresh runs to completion. -/
theorem show_rates_completed_some (fetch : FetchOracle) (u : Unit)
    (st : PanelState) :
    (show_rates fetch (some u) st).completed = true := by
  have h := show_rates_go_completed fetch u COIN_LIST { st with grid := [] }
  simpa [show_rates] using h

/-- With `api` bound, the successive `grid.children` values of a refresh are
the clearing followed by the successively longer card prefixes, independent
of the starting state. -/
theorem show_rates_trace_some (fetch : FetchOracle) (u : Unit)
    (st : PanelState) :
    (show_rates fetch (some u) st).trace =
      [] :: (List.range COIN_LIST.length).map
        (fun k => (COIN_LIST.take (k + 1)).map (cardFor fetch)) := by
  have h := show_rates_go_trace fetch u COIN_LIST { st with grid := [] }
  simp only [show_rates]
  rw [h]
  simp

/-! ## Claims -/

/-- **C3.** For every symbol whose fetch succeeds, with `latest` and `prior`
being the last two closes in chronological order, the card's color is
`up_color` if `latest > prior`, `down_color` if `latest < prior`, and
`neutral_color` otherwise (including `latest = prior`). -/
theorem claim_C3_trend_color (fetch : FetchOracle) (coin : String)
    (pre : List CloseObs) (prior latest : CloseObs)
    (h : fetch coin = Except.ok (pre ++ [prior, latest])) :
    (latest.val > prior.val →
      get_exchange_rate fetch coin =
        Except.ok (latest.rep.take 7, "up_color")) ∧
    (latest.val < prior.val →
      get_exchange_rate fetch coin =
        Except.ok (latest.rep.take 7, "down_color")) ∧
    (¬ latest.val > prior.val → ¬ latest.val < prior.val →
      get_exchange_rate fetch coin =
        Except.ok (latest.rep.take 7, "neutral_color")) := by
  rw [get_exchange_rate_ok fetch coin pre prior latest h]
  refine ⟨fun hgt => ?_, fun hlt => ?_, fun hgt hlt => ?_⟩
  · simp [hgt]
  · simp [hlt, lt_asymm hlt]
  · simp [hgt, hlt]

/-- Witness for C3 on the spec's three test vectors: closes `[10.0, 12.0]`
give `up_color`, `[12.0, 10.0]` give `down_color`, `[10.0, 10.0]` give
`neutral_color`. -/
theorem claim_C3_trend_color_witness :
    get_exchange_rate fetchUp "BTC" = Except.ok ("12.0", "up_color") ∧
    get_exchange_rate fetchDown "BTC" = Except.ok ("10.0", "down_color") ∧
    get_exchange_rate fetchFlat "BTC" = Except.ok ("10.0", "neutral_color") := by
  have e12 : ("12.0").take 7 = "12.0" := by decide
  have e10 : ("10.0").take 7 = "10.0" := by decide
  refine ⟨?_, ?_, ?_⟩
  · have h := (claim_C3_trend_color fetchUp "BTC" []
      { val := 10, rep := "10.0" } { val := 12, rep := "12.0" } rfl).1 (by norm_num)
    rw [e12] at h
    exact h
  · have h := (claim_C3_trend_color fetchDown "BTC" []
      { val := 12, rep := "12.0" } { val := 10, rep := "10.0" } rfl).2.1 (by norm_num)
    rw [e10] at h
    exact h
  · have h := (claim_C3_trend_color fetchFlat "BTC" []
      { val := 10, rep := "10.0" } { val := 10, rep := "10.0" } rfl).2.2
      (by norm_num) (by norm_num)
    rw [e10] at h
    exact h

/-- **C4.** For every symbol whose fetch succeeds, the displayed price string
is the first 7 characters of the default string representation of the latest
close — truncation, not rounding; in particular a latest close of
`12345.6789` yields the display string `"12345.6"`. -/
theorem claim_C4_price_truncation :
    (∀ (fetch : FetchOracle) (coin : String) (pre : List CloseObs)
        (prior latest : CloseObs),
      fetch coin = Except.ok (pre ++ [prior, latest]) →
      ∃ c, get_exchange_rate fetch coin =
        Except.ok (latest.rep.take 7, c)) ∧
    get_exchange_rate fetchLong "BTC" = Except.ok ("12345.6", "up_color") := by
  constructor
  · intro fetch coin pre prior latest h
    exact ⟨_, get_exchange_rate_ok fetch coin pre prior latest h⟩
  · have h := get_exchange_rate_ok fetchLong "BTC" []
      { val := 10, rep := "10.0" } { val := 12345.6789, rep := "12345.6789" } rfl
    rw [show (("12345.6789").take 7) = "12345.6" from by decide] at h
    rw [h]
    norm_num

/-- Witness for C4: a successful fetch whose latest close prints as
`"12345.6789"` is displayed as `"12345.6"`. -/
theorem claim_C4_price_truncation_witness :
    ∃ c, get_exchange_rate fetchLong "BTC" = Except.ok ("12345.6", c) := by
  have h := claim_C4_price_truncation.1 fetchLong "BTC" []
    { val := 10, rep := "10.0" } { val := 12345.6789, rep := "12345.6789" } rfl
  rw [show (("12345.6789").take 7) = "12345.6" from by decide] at h
  exact h

/-- **C9.** No call to `refresh()` ever removes a key from the exchange-rate
mapping: every symbol present in the mapping before a refresh is still
present, with its value, after it — for every fetch outcome pattern and
whether or not the global `api` is bound. -/
theorem claim_C9_keys_never_deleted (fetch : FetchOracle) (api? : Option Unit)
    (st : PanelState) (coin : String) (e : Entry)
    (h : st.exchange_rates.lookup coin = some e) :
    (show_rates fetch api? st).state.exchange_rates.lookup coin = some e := by
  exact show_rates_go_lookup fetch api? COIN_LIST { st with grid := [] } h

/-- Witness for C9: a BTC entry left by an earlier refresh survives a refresh
in the notebook's actual environment (unbound `api`, all fetches failing). -/
theorem claim_C9_keys_never_deleted_witness :
    (show_rates fetchFailAll apiBinding
      { exchange_rates := [("BTC", { price := none, color := none })]
        grid := [] }).state.exchange_rates.lookup "BTC" =
      some { price := none, color := none } :=
  claim_C9_keys_never_deleted fetchFailAll apiBinding
    { exchange_rates := [("BTC", { price := none, color := none })]
      grid := [] } "BTC" { price := none, color := none } (by decide)

/-- **C7.** Calling `refresh()` twice in a row with unchanged upstream data
yields an identical rendered grid both times (the final grid and the whole
sequence of grid states), regardless of the exchange-rate mapping left by
earlier refreshes — for any binding of `api`. -/
theorem claim_C7_idempotent (fetch : FetchOracle) (api? : Option Unit)
    (st : PanelState) :
    (show_rates fetch api? ((show_rates fetch api? st).state)).state.grid =
      (show_rates fetch api? st).state.grid ∧
    (show_rates fetch api? ((show_rates fetch api? st).state)).trace =
      (show_rates fetch api? st).trace := by
  cases api? with
  | none => rw [show_rates_none, show_rates_none]; exact ⟨rfl, rfl⟩
  | some u =>
    exact ⟨by rw [show_rates_grid_some, show_rates_grid_some],
      by rw [show_rates_trace_some, show_rates_trace_some]⟩

/-- **C5.** The fixed ticker list contains no duplicates, and for every call
to `refresh()` that completes, the rendered grid holds exactly one card per
symbol of the 48-symbol list, in the list's fixed order — no symbol missing,
duplicated, or out of order. -/
theorem claim_C5_one_card_per_symbol :
    COIN_LIST.Nodup ∧
    ∀ (fetch : FetchOracle) (api? : Option Unit) (st : PanelState),
      (show_rates fetch api? st).completed = true →
      (show_rates fetch api? st).state.grid = COIN_LIST.map (cardFor fetch) ∧
      ((show_rates fetch api? st).state.grid).map Card.ticker = COIN_LIST := by
  refine ⟨by decide, ?_⟩
  intro fetch api? st h
  cases api? with
  | none =>
    rw [show_rates_none] at h
    simp at h
  | some u =>
    refine ⟨show_rates_grid_some fetch u st, ?_⟩
    rw [show_rates_grid_some fetch u st, List.map_map]
    have : (Card.ticker ∘ cardFor fetch) = id := by
      funext c
      rfl
    rw [this, List.map_id]

/-- Witness for C5: with a bound `api` and a failing data source, a refresh
completes and its grid is one card per coin of the list, in order. -/
theorem claim_C5_one_card_per_symbol_witness :
    (show_rates fetchFailAll (some ())
      { exchange_rates := [], grid := [] }).completed = true ∧
    (show_rates fetchFailAll (some ())
      { exchange_rates := [], grid := [] }).state.grid =
      COIN_LIST.map (cardFor fetchFailAll) := by
  have hc : (show_rates fetchFailAll (some ())
      { exchange_rates := [], grid := [] }).completed = true :=
    show_rates_completed_some fetchFailAll ()
      { exchange_rates := [], grid := [] }
  exact ⟨hc, (claim_C5_one_card_per_symbol.2 fetchFailAll (some ())
    { exchange_rates := [], grid := [] } hc).1⟩

/-- **C10.** Only the per-symbol fetch is guarded by the catch-all handler:
the card-construction expression references the name `api`, which the
notebook never defines (`apiBinding = none`), so its `NameError` propagates
out of `refresh()` — for every fetch oracle and starting state, the handler
does not complete, the grid is left holding only the cards built before the
failure (none, since the first card already fails), and no symbol after the
first is processed (exactly one load request was issued). -/
theorem claim_C10_card_construction_unguarded (fetch : FetchOracle)
    (st : PanelState) :
    apiBinding = none ∧
    (show_rates fetch apiBinding st).completed = false ∧
    (show_rates fetch apiBinding st).state.grid = [] ∧
    (show_rates fetch apiBinding st).requests = [mkLoadRequest "BTC"] ∧
    (show_rates fetch apiBinding st).trace = [[]] := by
  rw [show apiBinding = none from rfl, show_rates_none]
  exact ⟨rfl, rfl, rfl, rfl, rfl⟩

/-- **C2** fails on the code as shipped: with the notebook's unbound `api`,
a refresh in which BTC's fetch raises does compute the placeholder pair
`("-------", "neutral_color")`, but the handler then dies with `NameError`
while building BTC's card: no card is rendered, and ETH and all later
symbols are never processed (exactly one request was issued). -/
theorem claim_C2_fetch_failure_not_contained :
    priceAndColor fetchFailAll "BTC" = ("-------", "neutral_color") ∧
    (show_rates fetchFailAll apiBinding
      { exchange_rates := [], grid := [] }).completed = false ∧
    (show_rates fetchFailAll apiBinding
      { exchange_rates := [], grid := [] }).state.grid = [] ∧
    (show_rates fetchFailAll apiBinding
      { exchange_rates := [], grid := [] }).requests.length = 1 := by
  rw [show apiBinding = none from rfl, show_rates_none]
  exact ⟨rfl, rfl, rfl, rfl⟩

/-- **C8** fails on the code as shipped: during a refresh only the first
symbol's request is ever issued (with interval `"1440"` minutes = 1 day and
source `"CCXT"`), not one request per each of the 48 symbols, because the
handler raises `NameError` on the unbound `api` right after the first
fetch. -/
theorem claim_C8_one_request_per_symbol_fails :
    (show_rates fetchUp apiBinding
      { exchange_rates := [], grid := [] }).requests =
      [{ symbol := "BTC", interval := "1440", source := "CCXT" }] ∧
    COIN_LIST.length = 48 ∧
    (show_rates fetchUp apiBinding
      { exchange_rates := [], grid := [] }).requests.length ≠
      COIN_LIST.length := by
  rw [show apiBinding = none from rfl, show_rates_none]
  exact ⟨rfl, rfl, by decide⟩

theorem lookup_append_of_none {α β : Type} [BEq α] {m : List (α × β)}
    (l : List (α × β)) {c : α} (h : m.lookup c = none) :
    (m ++ l).lookup c = l.lookup c := by
  induction m with
  | nil => simp
  | cons p m ih =>
    rw [List.cons_append]
    rw [List.lookup] at h ⊢
    cases hc : (c == p.1) with
    | true => rw [hc] at h; exact Option.noConfusion h
    | false => rw [hc] at h; exact ih h

theorem foldl_dictLazyInit_lookup {coins : List String}
    {m : List (String × Entry)} {c : String} {e : Entry}
    (h : m.lookup c = some e) :
    (coins.foldl dictLazyInit m).lookup c = some e := by
  induction coins generalizing m with
  | nil => simpa using h
  | cons coin rest ih => exact ih (lookup_dictLazyInit coin h)

/-- A coin of the list that is absent from the dict before the fold ends up
mapped to the fresh all-`None` entry. -/
theorem foldl_dictLazyInit_mem {coins : List String}
    {m : List (String × Entry)} {c : String}
    (hmem : c ∈ coins) (h : m.lookup c = none) :
    (coins.foldl dictLazyInit m).lookup c =
      some { price := none, color := none } := by
  induction coins generalizing m with
  | nil => cases hmem
  | cons coin rest ih =>
    rw [List.foldl_cons]
    by_cases hc : c = coin
    · subst hc
      have hd : dictLazyInit m c =
          m ++ [(c, { price := none, color := none })] := by
        unfold dictLazyInit
        rw [h]
      have h1 : (dictLazyInit m c).lookup c =
          some { price := none, color := none } := by
        rw [hd, lookup_append_of_none _ h]
        simp [List.lookup]
      exact foldl_dictLazyInit_lookup h1
    · have hmem2 : c ∈ rest := by
        cases hmem with
        | head => exact absurd rfl hc
        | tail _ hmem2 => exact hmem2
      have h1 : (dictLazyInit m coin).lookup c = none := by
        unfold dictLazyInit
        cases hl : m.lookup coin with
        | some _ => exact h
        | none =>
          rw [lookup_append_of_none _ h, List.lookup,
            show (c == coin) = false from beq_eq_false_iff_ne.mpr hc]
          rfl
      exact ih hmem2 h1

/-- With `api` bound, the dict after a refresh is the fold of the lazy
initialisation over the coin list. -/
theorem show_rates_rates_some (fetch : FetchOracle) (u : Unit)
    (st : PanelState) :
    (show_rates fetch (some u) st).state.exchange_rates =
      COIN_LIST.foldl dictLazyInit st.exchange_rates := by
  have h := show_rates_go_rates fetch u COIN_LIST { st with grid := [] }
  simpa [show_rates] using h

/-- **C1** fails on the code: even when BTC's fetch succeeds with closes
`[10.0, 12.0]` and the refresh runs to completion (`api` modelled as bound),
the mapping entry for BTC stays `{price: None, color: None}` — the computed
record `("12.0", "up_color")` flows only into BTC's card, never into the
mapping. -/
theorem claim_C1_counterexample :
    (show_rates fetchUp (some ())
      { exchange_rates := [], grid := [] }).state.exchange_rates.lookup "BTC" =
      some { price := none, color := none } ∧
    ¬ (show_rates fetchUp (some ())
      { exchange_rates := [], grid := [] }).state.exchange_rates.lookup "BTC" =
      some { price := some "12.0", color := some "up_color" } ∧
    ((show_rates fetchUp (some ())
      { exchange_rates := [], grid := [] }).state.grid).head? =
      some { ticker := "BTC", price := "12.0", price_color := "up_color" } := by
  have h1 : (show_rates fetchUp (some ())
      { exchange_rates := [], grid := [] }).state.exchange_rates.lookup "BTC" =
      some { price := none, color := none } := by
    rw [show_rates_rates_some]
    exact foldl_dictLazyInit_mem (by decide) rfl
  refine ⟨h1, ?_, ?_⟩
  · rw [h1]
    simp
  · rw [show_rates_grid_some, List.head?_map,
      show COIN_LIST.head? = some "BTC" from rfl]
    have hc : cardFor fetchUp "BTC" =
        { ticker := "BTC", price := "12.0", price_color := "up_color" } := by
      decide
    simp [hc]

/-- **C1 (amended).** After `refresh()` processes a symbol `s` of the list
(taking `api` as bound so every symbol is processed), the in-memory mapping
contains under `s` the fixed record `{price: None, color: None}`, created
lazily on the first refresh that encounters `s`; the computed price and color
are never stored in the mapping — they flow only into the rendered card. -/
theorem claim_C1_amended (fetch : FetchOracle) (u : Unit) (st : PanelState)
    (coin : String) (hmem : coin ∈ COIN_LIST)
    (habs : st.exchange_rates.lookup coin = none) :
    (show_rates fetch (some u) st).state.exchange_rates.lookup coin =
      some { price := none, color := none } := by
  rw [show_rates_rates_some]
  exact foldl_dictLazyInit_mem hmem habs

/-- Witness for the amended C1: starting from an empty mapping, a completed
refresh leaves ETH mapped to the all-`None` entry. -/
theorem claim_C1_amended_witness :
    (show_rates fetchUp (some ())
      { exchange_rates := [], grid := [] }).state.exchange_rates.lookup "ETH" =
      some { price := none, color := none } :=
  claim_C1_amended fetchUp () { exchange_rates := [], grid := [] } "ETH"
    (by decide) rfl

/-- **C6** fails on the code: in a refresh that processes every symbol
(`api` modelled as bound, every fetch failing), `grid.children` is assigned
49 times — once to clear it and once per symbol — not exactly once; after the
first symbol the visible grid holds just 1 of the 48 cards, an exposed
intermediate partial state. -/
theorem claim_C6_counterexample :
    (show_rates fetchFailAll (some ())
      { exchange_rates := [], grid := [] }).trace.length = 49 ∧
    (49 : Nat) ≠ 1 ∧
    (show_rates fetchFailAll (some ())
      { exchange_rates := [], grid := [] }).trace.get? 1 =
      some [{ ticker := "BTC", price := "-------"
              price_color := "neutral_color" }] := by
  have ht := show_rates_trace_some fetchFailAll ()
    { exchange_rates := [], grid := [] }
  refine ⟨?_, by decide, ?_⟩
  · rw [ht]
    simp
    decide
  · rw [ht]
    have hc : cardFor fetchFailAll "BTC" =
        { ticker := "BTC", price := "-------"
          price_color := "neutral_color" } := by decide
    simp [List.get?, List.range_succ_eq_map, hc,
      show COIN_LIST.take 1 = ["BTC"] from rfl]

/-- **C6 (amended).** During a refresh in which card construction succeeds,
the visible grid is updated incrementally, not atomically: it is assigned
once to clear it and then once per symbol, the k-th exposed grid state being
the first k cards of the new sequence, so intermediate partial states are
exposed; only the last assignment holds the complete ordered card sequence.
(With the notebook's unbound `api`, only the initial clearing happens.) -/
theorem claim_C6_amended (fetch : FetchOracle) (u : Unit) (st : PanelState) :
    (show_rates fetch (some u) st).trace =
      (List.range (COIN_LIST.length + 1)).map
        (fun k => (COIN_LIST.take k).map (cardFor fetch)) := by
  rw [show_rates_trace_some, List.range_succ_eq_map]
  simp [Function.comp]
